import Mathlib

/-!
Verification development for the llm-vis-demo repository.

The live backend (`server.js`) exposes `POST /generate-visualization`.  Its
translation core consists of `generateFallbackVisualization` (keyword-based
geometry/axis/title extraction) and `validateAndCleanSpec` (schema
normalisation).  We embed these functions, together with an instrumented model
of the request handler's control flow, as executable Lean definitions.

The repository's README additionally documents a self-contained rule-based
NLP engine (`parseVisualizationQuery`) whose code is not present in the
checked-in sources; the design document describes it in detail.  Definitions
for that engine live in the `SpecModel` namespace and are modelled from the
design document's wording.

Strings are modelled as Lean `String` (lists of characters); JavaScript's
UTF-16 index arithmetic is rendered as character-list arithmetic, `\s` in the
stripping regexes as `Char.isWhitespace`, and JavaScript truthiness of a
string field as inequality with `""`.
-/

/-- `listStartsWith s pat` is true when `pat` is a prefix of `s`. -/
def listStartsWith : List Char → List Char → Bool
  | _, [] => true
  | [], _ :: _ => false
  | a :: as, b :: bs => a == b && listStartsWith as bs

/-- `listHasSub s pat` is true when `pat` occurs contiguously inside `s`
(the semantics of JavaScript's `String.prototype.includes`). -/
def listHasSub : List Char → List Char → Bool
  | [], pat => listStartsWith [] pat
  | s@(_ :: t), pat => listStartsWith s pat || listHasSub t pat

/-- JavaScript `haystack.includes(needle)`. -/
def includesStr (s pat : String) : Bool :=
  listHasSub s.toList pat.toList

/-- JavaScript `s.toLowerCase()`: character-by-character lower-casing
(`Char.toLower` handles the ASCII range, which covers every keyword). -/
def lowerStr (s : String) : String :=
  String.mk (s.toList.map Char.toLower)

/-- First `n` characters of a string (JavaScript `s.substring(0, n)`). -/
def strTake (s : String) (n : Nat) : String :=
  String.mk (s.toList.take n)

/-- JavaScript `query.charAt(0).toUpperCase() + query.slice(1)`. -/
def capitalizeFirst (q : String) : String :=
  match q.toList with
  | [] => ""
  | c :: rest => String.mk (c.toUpper :: rest)

/-- Drop the word `w` (compared case-insensitively) from the front of `s`;
`none` when `s` does not start with `w`. -/
def dropCI : List Char → List Char → Option (List Char)
  | [], s => some s
  | _ :: _, [] => none
  | w :: ws, c :: cs => if w.toLower == c.toLower then dropCI ws cs else none

/-- Drop every leading whitespace character. -/
def dropWsAll : List Char → List Char
  | [] => []
  | c :: cs => if c.isWhitespace then dropWsAll cs else c :: cs

/-- After the word of a stripping regex: require at least one whitespace
character and drop the whole whitespace run. -/
def wsTail : List Char → Option (List Char)
  | [] => none
  | c :: cs => if c.isWhitespace then some (dropWsAll cs) else none

/-- One alternative of the stripping regex `^(w)\s+`: succeeds when `s`
starts with `w` (case-insensitively) followed by at least one whitespace
character, and returns `s` with the word and the whitespace run removed. -/
def tryStrip (w : String) (s : List Char) : Option (List Char) :=
  (dropCI w.toList s).bind wsTail

/-- JavaScript `s.replace(/^(w1|w2|...)\s+/i, '')`: try the alternatives in
order and strip the first one that matches; otherwise leave `s` unchanged. -/
def stripFirst (words : List String) (s : List Char) : List Char :=
  match words with
  | [] => s
  | w :: ws =>
    match tryStrip w s with
    | some r => r
    | none => stripFirst ws s

/-- The output entity assembled by the backend: chart geometry, title and the
two axis variable names. -/
structure VizSpec where
  geom : String
  title : String
  x : String
  y : String
deriving DecidableEq, Repr

/-- A tentative specification as it arrives at `validateAndCleanSpec`: each
field is either a JavaScript string (`some`) or absent / not a string
(`none`). -/
structure RawSpec where
  geom : Option String
  title : Option String
  x : Option String
  y : Option String
deriving DecidableEq, Repr

/-- View a well-formed spec as input for `validateAndCleanSpec`. -/
def VizSpec.toRaw (s : VizSpec) : RawSpec :=
  ⟨some s.geom, some s.title, some s.x, some s.y⟩

/-- Chart-type detection of `generateFallbackVisualization` (server.js
406-418): an if/else-if chain over substring tests on the lower-cased query,
defaulting to `"bar"`. -/
def detectGeom (lowerQuery : String) : String :=
  if includesStr lowerQuery "scatter" || includesStr lowerQuery "correlation" ||
     includesStr lowerQuery "relationship" || includesStr lowerQuery "vs" ||
     includesStr lowerQuery "against" then "point"
  else if includesStr lowerQuery "line" || includesStr lowerQuery "trend" ||
          includesStr lowerQuery "time" || includesStr lowerQuery "over time" ||
          includesStr lowerQuery "timeline" || includesStr lowerQuery "progression" then "line"
  else if includesStr lowerQuery "area" || includesStr lowerQuery "filled" ||
          includesStr lowerQuery "cumulative" then "area"
  else "bar"

/-- The `yKeywords` dictionary of server.js 425-433, in insertion order. -/
def yKeywords : List (String × List String) :=
  [("price", ["price", "cost", "expense"]),
   ("sales", ["sales", "revenue", "earnings"]),
   ("count", ["count", "number", "quantity"]),
   ("amount", ["amount", "total", "sum"]),
   ("rating", ["rating", "score", "quality"]),
   ("traffic", ["traffic", "visits", "views"]),
   ("growth", ["growth", "increase", "change"])]

/-- The `xKeywords` dictionary of server.js 443-450, in insertion order. -/
def xKeywords : List (String × List String) :=
  [("months", ["month", "monthly", "jan", "feb", "mar"]),
   ("years", ["year", "yearly", "annual"]),
   ("regions", ["region", "location", "area", "city"]),
   ("categories", ["category", "type", "kind"]),
   ("products", ["product", "item", "goods"]),
   ("time", ["time", "period", "date"])]

/-- The `for (const [key, keywords] of Object.entries(dict))` loops of
server.js 435-440 and 452-457: the first key one of whose keywords occurs in
the lower-cased query wins; otherwise the default is kept. -/
def firstKeyHit (dict : List (String × List String)) (lowerQuery : String)
    (dflt : String) : String :=
  match dict with
  | [] => dflt
  | (k, kws) :: rest =>
    if kws.any (fun kw => includesStr lowerQuery kw) then k
    else firstKeyHit rest lowerQuery dflt

/-- Title computation of server.js 459-467: capitalise the first character,
truncate past 50 characters to the first 47 plus `"..."`, then strip one
leading command verb and one leading article (each with its trailing
whitespace run). -/
def fallbackTitle (query : String) : String :=
  let title0 := capitalizeFirst query
  let title1 := if title0.length > 50 then strTake title0 47 ++ "..." else title0
  let title2 := String.mk (stripFirst ["show", "create", "display", "generate"] title1.toList)
  String.mk (stripFirst ["a", "an", "the"] title2.toList)

/-- `generateFallbackVisualization` of server.js 400-475 (the version wired
to the live endpoint): geometry by keyword chain, axes by dictionary scan,
title by `fallbackTitle` with the empty result replaced by the generic
default. -/
def generateFallbackVisualization (query : String) : VizSpec :=
  let lowerQuery := (lowerStr query)
  { geom := detectGeom lowerQuery
    title := if fallbackTitle query = "" then "Generated Visualization" else fallbackTitle query
    x := firstKeyHit xKeywords lowerQuery "categories"
    y := firstKeyHit yKeywords lowerQuery "values" }

/-- The `geom` clause of `validateAndCleanSpec` (server.js 554):
`validGeoms.includes(spec.geom) ? spec.geom : 'bar'`. -/
def cleanGeom : Option String → String
  | some g => if g ∈ (["point", "line", "bar", "area"] : List String) then g else "bar"
  | none => "bar"

/-- A string clause of `validateAndCleanSpec` (server.js 555-560):
`(f && typeof f === 'string') ? f.substring(0, n) : dflt`. -/
def cleanField (dflt : String) (n : Nat) : Option String → String
  | some v => if v = "" then dflt else strTake v n
  | none => dflt

/-- `validateAndCleanSpec` of server.js 550-562: clamp `geom` to the enum,
`title` to 100 characters and `x`, `y` to 50 characters, substituting the
defaults for absent, non-string or empty fields. -/
def validateAndCleanSpec (spec : RawSpec) : VizSpec :=
  { geom := cleanGeom spec.geom
    title := cleanField "Generated Visualization" 100 spec.title
    x := cleanField "categories" 50 spec.x
    y := cleanField "values" 50 spec.y }

/-- The possible outcomes of the language-model stage as seen by the request
handler: missing API key, a call that yields an extracted JSON object, a call
with no extractable JSON, a call that throws, or an exception reaching the
outer catch block. -/
inductive LlmOutcome where
  | noKey : LlmOutcome
  | extracted : RawSpec → LlmOutcome
  | noJson : LlmOutcome
  | llmError : LlmOutcome
  | outerError : LlmOutcome
deriving DecidableEq, Repr

/-- HTTP responses the endpoint can produce. -/
inductive Response where
  | badRequest : String → Response
  | ok : VizSpec → Response
deriving DecidableEq, Repr

/-- Instrumented result of one request: the response, whether the returned
object passed through `validateAndCleanSpec`, and whether the fallback
generator was invoked. -/
structure HandlerTrace where
  response : Response
  validated : Bool
  fallbackCalled : Bool
deriving DecidableEq, Repr

/-- The `POST /generate-visualization` handler of server.js 478-547, with the
query modelled as `Option String` (`none` = field missing) and the
language-model stage abstracted by an `LlmOutcome`.  A missing or empty query
is rejected with HTTP 400 before anything else runs; without an API key, and
in the outer catch block, the fallback spec is returned directly; on the main
path the spec (extracted or fallback) is passed through
`validateAndCleanSpec`. -/
def handle (query : Option String) (env : LlmOutcome) : HandlerTrace :=
  match query with
  | none => ⟨Response.badRequest "Query is required.", false, false⟩
  | some q =>
    if q = "" then ⟨Response.badRequest "Query is required.", false, false⟩
    else
      match env with
      | LlmOutcome.noKey =>
          ⟨Response.ok (generateFallbackVisualization q), false, true⟩
      | LlmOutcome.extracted raw =>
          ⟨Response.ok (validateAndCleanSpec raw), true, false⟩
      | LlmOutcome.noJson =>
          ⟨Response.ok (validateAndCleanSpec (VizSpec.toRaw (generateFallbackVisualization q))), true, true⟩
      | LlmOutcome.llmError =>
          ⟨Response.ok (validateAndCleanSpec (VizSpec.toRaw (generateFallbackVisualization q))), true, true⟩
      | LlmOutcome.outerError =>
          ⟨Response.ok (generateFallbackVisualization q), false, true⟩

/-- The schema invariant on outgoing specifications: `geom` in the
four-element enum, `title`, `x`, `y` non-empty and within their length
bounds. -/
def schemaOK (s : VizSpec) : Prop :=
  s.geom ∈ (["point", "line", "bar", "area"] : List String) ∧
  s.title ≠ "" ∧ s.title.length ≤ 100 ∧
  s.x ≠ "" ∧ s.x.length ≤ 50 ∧
  s.y ≠ "" ∧ s.y.length ≤ 50

instance (s : VizSpec) : Decidable (schemaOK s) := by
  unfold schemaOK; infer_instance


/-! ### Basic facts about the string helpers -/

theorem stringMk_length (l : List Char) : (String.mk l).length = l.length := rfl

theorem stringMk_eq_empty_iff (l : List Char) : String.mk l = "" ↔ l = [] := by
  simp [String.ext_iff]

theorem strTake_length (s : String) (n : Nat) : (strTake s n).length = min n s.length := by
  simp [strTake, stringMk_length, List.length_take]

theorem strTake_length_le (s : String) (n : Nat) : (strTake s n).length ≤ n := by
  rw [strTake_length]; exact Nat.min_le_left n s.length

theorem strTake_ne_empty (s : String) (n : Nat) (hs : s ≠ "") (hn : n ≠ 0) :
    strTake s n ≠ "" := by
  rw [strTake, Ne, stringMk_eq_empty_iff]
  intro hc
  rcases List.take_eq_nil_iff.mp hc with h | h
  · exact hn h
  · apply hs; cases s; simp at h; simp [h]

theorem dropWsAll_length_le (s : List Char) : (dropWsAll s).length ≤ s.length := by
  induction s with
  | nil => simp [dropWsAll]
  | cons c cs ih =>
    rw [dropWsAll]
    split
    · exact Nat.le_trans ih (Nat.le_succ _)
    · simp

theorem dropCI_length_le (w s r : List Char) (h : dropCI w s = some r) :
    r.length ≤ s.length := by
  induction w generalizing s with
  | nil =>
    simp only [dropCI, Option.some.injEq] at h
    subst h
    exact Nat.le_refl _
  | cons a as ih =>
    cases s with
    | nil => simp only [dropCI] at h; exact Option.noConfusion h
    | cons c cs =>
      simp only [dropCI] at h
      split at h
      · exact Nat.le_trans (ih cs h) (Nat.le_succ _)
      · cases h

theorem wsTail_length_le (s r : List Char) (h : wsTail s = some r) :
    r.length ≤ s.length := by
  cases s with
  | nil => simp only [wsTail] at h; exact Option.noConfusion h
  | cons c cs =>
    simp only [wsTail] at h
    split at h
    · cases h
      exact Nat.le_trans (dropWsAll_length_le cs) (Nat.le_succ _)
    · cases h

theorem tryStrip_length_le (w : String) (s r : List Char) (h : tryStrip w s = some r) :
    r.length ≤ s.length := by
  rw [tryStrip] at h
  cases hd : dropCI w.toList s with
  | none => rw [hd] at h; exact Option.noConfusion h
  | some rest =>
    rw [hd] at h
    exact Nat.le_trans (wsTail_length_le rest r h) (dropCI_length_le _ _ _ hd)

theorem stripFirst_length_le (ws : List String) (s : List Char) :
    (stripFirst ws s).length ≤ s.length := by
  induction ws with
  | nil => rw [stripFirst]
  | cons w rest ih =>
    rw [stripFirst]
    cases ht : tryStrip w s with
    | none => exact ih
    | some r => exact tryStrip_length_le w s r ht

theorem fallbackTitle_length_le (q : String) : (fallbackTitle q).length ≤ 50 := by
  rw [fallbackTitle]
  have h2 : ∀ (ws : List String) (t : String),
      (String.mk (stripFirst ws t.toList)).length ≤ t.length := by
    intro ws t
    rw [stringMk_length]
    have h := stripFirst_length_le ws t.toList
    have ht : t.toList.length = t.length := rfl
    omega
  have h1 : ((if (capitalizeFirst q).length > 50 then
      strTake (capitalizeFirst q) 47 ++ "..." else capitalizeFirst q) : String).length ≤ 50 := by
    split
    · rw [String.length_append]
      have h := strTake_length_le (capitalizeFirst q) 47
      have he : ("..." : String).length = 3 := rfl
      omega
    · omega
  calc (String.mk (stripFirst ["a", "an", "the"]
          (String.mk (stripFirst ["show", "create", "display", "generate"]
            (if (capitalizeFirst q).length > 50 then
              strTake (capitalizeFirst q) 47 ++ "..." else capitalizeFirst q).toList)).toList)).length
      ≤ _ := h2 _ _
    _ ≤ _ := h2 _ _
    _ ≤ 50 := h1

/-! ### The fallback generator's output ranges -/

/-- The values `generateFallbackVisualization` can assign to `x`. -/
def xLabels : List String :=
  ["categories", "months", "years", "regions", "products", "time"]

/-- The values `generateFallbackVisualization` can assign to `y`. -/
def yLabels : List String :=
  ["values", "price", "sales", "count", "amount", "rating", "traffic", "growth"]

theorem fallback_geom_eq (q : String) :
    (generateFallbackVisualization q).geom = detectGeom (lowerStr q) := rfl

theorem fallback_title_eq (q : String) :
    (generateFallbackVisualization q).title =
      if fallbackTitle q = "" then "Generated Visualization" else fallbackTitle q := rfl

theorem fallback_x_eq (q : String) :
    (generateFallbackVisualization q).x = firstKeyHit xKeywords (lowerStr q) "categories" := rfl

theorem fallback_y_eq (q : String) :
    (generateFallbackVisualization q).y = firstKeyHit yKeywords (lowerStr q) "values" := rfl

theorem firstKeyHit_mem (dict : List (String × List String)) (lq dflt : String) :
    firstKeyHit dict lq dflt ∈ dflt :: dict.map Prod.fst := by
  induction dict with
  | nil => rw [firstKeyHit]; exact List.mem_cons_self _ _
  | cons p rest ih =>
    obtain ⟨k, kws⟩ := p
    rw [firstKeyHit]
    split
    · simp
    · rcases List.mem_cons.mp ih with h | h
      · simp [h]
      · simp [h]

theorem detectGeom_mem (lq : String) :
    detectGeom lq ∈ (["point", "line", "bar", "area"] : List String) := by
  rw [detectGeom]
  split
  · decide
  · split
    · decide
    · split
      · decide
      · decide

theorem fallback_x_mem (q : String) : (generateFallbackVisualization q).x ∈ xLabels := by
  rw [fallback_x_eq]
  have h := firstKeyHit_mem xKeywords (lowerStr q) "categories"
  have hsub : ∀ v ∈ ("categories" :: xKeywords.map Prod.fst), v ∈ xLabels := by decide
  exact hsub _ h

theorem fallback_y_mem (q : String) : (generateFallbackVisualization q).y ∈ yLabels := by
  rw [fallback_y_eq]
  have h := firstKeyHit_mem yKeywords (lowerStr q) "values"
  have hsub : ∀ v ∈ ("values" :: yKeywords.map Prod.fst), v ∈ yLabels := by decide
  exact hsub _ h

theorem fallback_title_ok (q : String) :
    (generateFallbackVisualization q).title ≠ "" ∧
    (generateFallbackVisualization q).title.length ≤ 50 := by
  rw [fallback_title_eq]
  split
  · exact ⟨by decide, by decide⟩
  · exact ⟨by assumption, fallbackTitle_length_le q⟩

theorem fallback_schemaOK (q : String) : schemaOK (generateFallbackVisualization q) := by
  obtain ⟨ht1, ht2⟩ := fallback_title_ok q
  have hx := fallback_x_mem q
  have hy := fallback_y_mem q
  have hxok : ∀ v ∈ xLabels, v ≠ "" ∧ v.length ≤ 50 := by decide
  have hyok : ∀ v ∈ yLabels, v ≠ "" ∧ v.length ≤ 50 := by decide
  exact ⟨by rw [fallback_geom_eq]; exact detectGeom_mem (lowerStr q), ht1, by omega,
    (hxok _ hx).1, (hxok _ hx).2, (hyok _ hy).1, (hyok _ hy).2⟩

/-! ### The validator always emits a schema-conformant spec -/

theorem cleanGeom_mem (g : Option String) :
    cleanGeom g ∈ (["point", "line", "bar", "area"] : List String) := by
  cases g with
  | none => decide
  | some g =>
    simp only [cleanGeom]
    split
    · assumption
    · decide

theorem cleanField_ne_empty (dflt : String) (n : Nat) (v : Option String)
    (hd : dflt ≠ "") (hn : n ≠ 0) : cleanField dflt n v ≠ "" := by
  cases v with
  | none => exact hd
  | some v =>
    simp only [cleanField]
    split
    · exact hd
    · exact strTake_ne_empty v n (by assumption) hn

theorem cleanField_length_le (dflt : String) (n : Nat) (v : Option String)
    (hd : dflt.length ≤ n) : (cleanField dflt n v).length ≤ n := by
  cases v with
  | none => exact hd
  | some v =>
    simp only [cleanField]
    split
    · exact hd
    · exact strTake_length_le v n

theorem validate_schemaOK (raw : RawSpec) : schemaOK (validateAndCleanSpec raw) :=
  ⟨cleanGeom_mem raw.geom,
   cleanField_ne_empty _ _ raw.title (by decide) (by decide),
   cleanField_length_le _ _ raw.title (by decide),
   cleanField_ne_empty _ _ raw.x (by decide) (by decide),
   cleanField_length_le _ _ raw.x (by decide),
   cleanField_ne_empty _ _ raw.y (by decide) (by decide),
   cleanField_length_le _ _ raw.y (by decide)⟩

/-! ### Success responses of the request handler -/

/-- Shared case analysis: a success response for a non-empty query is either
a validated spec (main path) or the fallback generator's output returned
directly (no-API-key path, outer catch path). -/
theorem handle_success_cases (q : String) (env : LlmOutcome) (s : VizSpec)
    (hq : q ≠ "") (hr : (handle (some q) env).response = Response.ok s) :
    ((handle (some q) env).validated = true ∧ ∃ raw, s = validateAndCleanSpec raw) ∨
    ((handle (some q) env).validated = false ∧ s = generateFallbackVisualization q) := by
  cases env with
  | noKey =>
    simp only [handle, if_neg hq] at hr
    exact Or.inr ⟨by simp only [handle, if_neg hq], (Response.ok.inj hr).symm⟩
  | extracted raw =>
    simp only [handle, if_neg hq] at hr
    exact Or.inl ⟨by simp only [handle, if_neg hq], raw, (Response.ok.inj hr).symm⟩
  | noJson =>
    simp only [handle, if_neg hq] at hr
    exact Or.inl ⟨by simp only [handle, if_neg hq], _, (Response.ok.inj hr).symm⟩
  | llmError =>
    simp only [handle, if_neg hq] at hr
    exact Or.inl ⟨by simp only [handle, if_neg hq], _, (Response.ok.inj hr).symm⟩
  | outerError =>
    simp only [handle, if_neg hq] at hr
    exact Or.inr ⟨by simp only [handle, if_neg hq], (Response.ok.inj hr).symm⟩

/-- C1: for every non-empty query string processed to a success response, the
returned specification satisfies the schema invariant: `geom` is one of the
four enum values `"point"`, `"line"`, `"bar"`, `"area"`, and `title`, `x`,
`y` are non-empty strings, with `title` at most 100 characters and `x`, `y`
at most 50 characters each. -/
theorem C1_success_response_schemaOK (q : String) (env : LlmOutcome) (s : VizSpec)
    (hq : q ≠ "") (hr : (handle (some q) env).response = Response.ok s) :
    schemaOK s := by
  rcases handle_success_cases q env s hq hr with ⟨-, raw, rfl⟩ | ⟨-, rfl⟩
  · exact validate_schemaOK raw
  · exact fallback_schemaOK q

/-- Witness for C1: the concrete query "sales" on the no-API-key path. -/
theorem C1_witness : schemaOK (generateFallbackVisualization "sales") :=
  C1_success_response_schemaOK "sales" LlmOutcome.noKey _ (by decide) rfl

/-- C3 counterexample: for the non-empty query "sales" on the no-API-key
path the handler produces a success response whose object was returned
directly by the fallback generator and never went through
`validateAndCleanSpec`, refuting the claim that every success path passes
through the validating stage. -/
theorem C3_counterexample :
    ("sales" : String) ≠ "" ∧
    (handle (some "sales") LlmOutcome.noKey).response =
      Response.ok (generateFallbackVisualization "sales") ∧
    (handle (some "sales") LlmOutcome.noKey).validated = false :=
  ⟨by decide, rfl, rfl⟩

/-- C3 (amended): a success response for a non-empty query either passed
through `validateAndCleanSpec` (the main path, API key present) or is the
fallback generator's output returned directly (the no-API-key path and the
outer exception-recovery path), and in the latter case it nevertheless
satisfies the schema invariant. -/
theorem C3_amended_success_paths (q : String) (env : LlmOutcome) (s : VizSpec)
    (hq : q ≠ "") (hr : (handle (some q) env).response = Response.ok s) :
    ((handle (some q) env).validated = true ∧ ∃ raw, s = validateAndCleanSpec raw) ∨
    ((handle (some q) env).validated = false ∧
      s = generateFallbackVisualization q ∧ schemaOK s) := by
  rcases handle_success_cases q env s hq hr with ⟨hv, raw, hs⟩ | ⟨hv, hs⟩
  · exact Or.inl ⟨hv, raw, hs⟩
  · exact Or.inr ⟨hv, hs, hs ▸ fallback_schemaOK q⟩

/-- Witness for the amended C3: the concrete query "revenue" on the path
where the language-model call throws. -/
theorem C3_amended_witness :
    ((handle (some "revenue") LlmOutcome.llmError).validated = true ∧
      ∃ raw, validateAndCleanSpec (VizSpec.toRaw (generateFallbackVisualization "revenue")) =
        validateAndCleanSpec raw) ∨
    ((handle (some "revenue") LlmOutcome.llmError).validated = false ∧
      validateAndCleanSpec (VizSpec.toRaw (generateFallbackVisualization "revenue")) =
        generateFallbackVisualization "revenue" ∧
      schemaOK (validateAndCleanSpec (VizSpec.toRaw (generateFallbackVisualization "revenue")))) :=
  C3_amended_success_paths "revenue" LlmOutcome.llmError _ (by decide) rfl

/-- C8: a request with a missing or empty query is answered with HTTP 400
and the body `{ "error": "Query is required." }`, with neither the
translator nor the validator invoked; for every non-empty query the 400
branch is not taken and a success response is produced. -/
theorem C8_query_guard (env : LlmOutcome) :
    handle none env = ⟨Response.badRequest "Query is required.", false, false⟩ ∧
    handle (some "") env = ⟨Response.badRequest "Query is required.", false, false⟩ ∧
    (∀ q : String, q ≠ "" → ∃ s : VizSpec, (handle (some q) env).response = Response.ok s) := by
  refine ⟨rfl, rfl, ?_⟩
  intro q hq
  cases env with
  | noKey =>
    exact ⟨generateFallbackVisualization q, by simp only [handle, if_neg hq]⟩
  | extracted raw =>
    exact ⟨validateAndCleanSpec raw, by simp only [handle, if_neg hq]⟩
  | noJson =>
    exact ⟨validateAndCleanSpec (VizSpec.toRaw (generateFallbackVisualization q)),
      by simp only [handle, if_neg hq]⟩
  | llmError =>
    exact ⟨validateAndCleanSpec (VizSpec.toRaw (generateFallbackVisualization q)),
      by simp only [handle, if_neg hq]⟩
  | outerError =>
    exact ⟨generateFallbackVisualization q, by simp only [handle, if_neg hq]⟩

/-- Witness for C8: the non-empty query "sales" gets a success response. -/
theorem C8_witness :
    ∃ s : VizSpec, (handle (some "sales") LlmOutcome.noKey).response = Response.ok s :=
  (C8_query_guard LlmOutcome.noKey).2.2 "sales" (by decide)

/-- C9: the translator core is deterministic — invoking the fallback
pipeline (geometry classification, variable extraction, title synthesis),
the validator, and the whole request handler twice on identical inputs
yields identical outputs. -/
theorem C9_deterministic (q1 q2 : String) (env : LlmOutcome) (h : q1 = q2) :
    generateFallbackVisualization q1 = generateFallbackVisualization q2 ∧
    validateAndCleanSpec (VizSpec.toRaw (generateFallbackVisualization q1)) =
      validateAndCleanSpec (VizSpec.toRaw (generateFallbackVisualization q2)) ∧
    handle (some q1) env = handle (some q2) env := by
  subst h
  exact ⟨rfl, rfl, rfl⟩

/-- Witness for C9 at the concrete query "sales". -/
theorem C9_witness :
    generateFallbackVisualization "sales" = generateFallbackVisualization "sales" ∧
    validateAndCleanSpec (VizSpec.toRaw (generateFallbackVisualization "sales")) =
      validateAndCleanSpec (VizSpec.toRaw (generateFallbackVisualization "sales")) ∧
    handle (some "sales") LlmOutcome.noKey = handle (some "sales") LlmOutcome.noKey :=
  C9_deterministic "sales" "sales" LlmOutcome.noKey rfl

/-- C10: for every non-empty query the fallback generator's output already
satisfies the schema invariant without any subsequent validation — `geom` in
the four-element enum, `title` non-empty and at most 50 characters (with the
empty-after-stripping case replaced by "Generated Visualization"), `x` and
`y` drawn from fixed finite label sets of at most 50 characters — so the two
response paths that skip `validateAndCleanSpec` still return
schema-conformant objects. -/
theorem C10_fallback_conformant (q : String) (hq : q ≠ "") :
    (generateFallbackVisualization q).geom ∈ (["point", "line", "bar", "area"] : List String) ∧
    (generateFallbackVisualization q).title ≠ "" ∧
    (generateFallbackVisualization q).title.length ≤ 50 ∧
    (fallbackTitle q = "" → (generateFallbackVisualization q).title = "Generated Visualization") ∧
    (generateFallbackVisualization q).x ∈ xLabels ∧
    (generateFallbackVisualization q).x.length ≤ 50 ∧
    (generateFallbackVisualization q).y ∈ yLabels ∧
    (generateFallbackVisualization q).y.length ≤ 50 ∧
    schemaOK (generateFallbackVisualization q) ∧
    (handle (some q) LlmOutcome.noKey).response =
      Response.ok (generateFallbackVisualization q) ∧
    (handle (some q) LlmOutcome.noKey).validated = false ∧
    (handle (some q) LlmOutcome.outerError).response =
      Response.ok (generateFallbackVisualization q) ∧
    (handle (some q) LlmOutcome.outerError).validated = false := by
  obtain ⟨ht1, ht2⟩ := fallback_title_ok q
  have hx := fallback_x_mem q
  have hy := fallback_y_mem q
  have hxok : ∀ v ∈ xLabels, v.length ≤ 50 := by decide
  have hyok : ∀ v ∈ yLabels, v.length ≤ 50 := by decide
  refine ⟨by rw [fallback_geom_eq]; exact detectGeom_mem (lowerStr q), ht1, ht2, ?_,
    hx, hxok _ hx, hy, hyok _ hy, fallback_schemaOK q,
    by simp only [handle, if_neg hq], by simp only [handle, if_neg hq],
    by simp only [handle, if_neg hq], by simp only [handle, if_neg hq]⟩
  intro he
  rw [fallback_title_eq, if_pos he]

/-- Witness for C10 at the concrete query "show the sales". -/
theorem C10_witness :
    (generateFallbackVisualization "show the sales").title ≠ "" ∧
    (generateFallbackVisualization "show the sales").x ∈ xLabels ∧
    (generateFallbackVisualization "show the sales").y ∈ yLabels :=
  ⟨(C10_fallback_conformant "show the sales" (by decide)).2.1,
   (C10_fallback_conformant "show the sales" (by decide)).2.2.2.2.1,
   (C10_fallback_conformant "show the sales" (by decide)).2.2.2.2.2.2.1⟩

/-! ### The rule-based engine modelled from the design document

The README documents a self-contained rule-based engine
(`parseVisualizationQuery`) as the version wired to the live endpoint, but
its code is not among the checked-in sources — only the earlier
external-service variants are.  The definitions below reconstruct it from
the design document (sections 4.1-4.4). -/

namespace SpecModel

/-- Modelled from the spec: the missing `parseVisualizationQuery` engine's
`bar` keyword set (GeomClassifier, section 4.2). -/
def barKw : List String :=
  ["bar", "column", "compare", "comparison", "between", "categorical"]

/-- Modelled from the spec: the missing engine's `line` keyword set
(section 4.2). -/
def lineKw : List String :=
  ["line", "trend", "time", "over time", "timeline", "progression", "change", "series"]

/-- Modelled from the spec: the missing engine's `point` keyword set
(section 4.2). -/
def pointKw : List String :=
  ["scatter", "correlation", "relationship", "vs", "against", "compared to", "plot"]

/-- Modelled from the spec: the missing engine's `area` keyword set
(section 4.2). -/
def areaKw : List String :=
  ["area", "filled", "cumulative", "stacked", "under curve"]

/-- Modelled from the spec: the fixed declared candidate order
`bar`, `line`, `point`, `area` (section 4.2). -/
def candidates : List (String × List String) :=
  [("bar", barKw), ("line", lineKw), ("point", pointKw), ("area", areaKw)]

/-- Accumulator-based whitespace tokenizer: collect maximal runs of
non-whitespace characters. -/
def tokensAux : List Char → List Char → List String
  | [], acc => if acc = [] then [] else [String.mk acc.reverse]
  | c :: cs, acc =>
    if c.isWhitespace then
      (if acc = [] then tokensAux cs [] else String.mk acc.reverse :: tokensAux cs [])
    else tokensAux cs (c :: acc)

/-- Modelled from the spec: the Normalizer's whitespace-split token sequence
of the lower-cased query (section 4.1). -/
def tokensOf (lq : String) : List String :=
  tokensAux lq.toList []

/-- Modelled from the spec: one keyword's score contribution (section 4.2),
doubled so that it stays in `Nat`: a substring occurrence is worth 2 (the
spec's 1.0) and an exact whole-token occurrence adds 1 more (the spec's 0.5
bonus on top of the substring hit). -/
def kwScore2 (lq : String) (toks : List String) (kw : String) : Nat :=
  if includesStr lq kw then 2 + (if kw ∈ toks then 1 else 0) else 0

/-- Modelled from the spec: a candidate's total (doubled) score, the sum of
its keywords' contributions (section 4.2). -/
def candScore2 (lq : String) (toks : List String) (kws : List String) : Nat :=
  (kws.map (kwScore2 lq toks)).sum

/-- Modelled from the spec: the missing GeomClassifier's selection rule
(section 4.2) — seed the winner with `bar` and `bar`'s own score, iterate
the candidates in declared order, and replace the winner only on a strictly
greater score. -/
def classifyGeom (q : String) : String :=
  let lq := (lowerStr q)
  let toks := tokensOf lq
  (candidates.foldl
    (fun best c =>
      if best.2 < candScore2 lq toks c.2 then (c.1, candScore2 lq toks c.2) else best)
    ("bar", candScore2 lq toks barKw)).1

/-- Modelled from the spec: the missing VariableExtractor's temporal keyword
dictionary, in listed order (section 4.3). -/
def temporalKws : List String :=
  ["month", "year", "quarter", "week", "day", "time", "date", "period"]

/-- Modelled from the spec: the temporal canonical plural/label mapping
(section 4.3). -/
def temporalMap (kw : String) : String :=
  if kw = "month" then "months"
  else if kw = "year" then "years"
  else if kw = "quarter" then "quarters"
  else if kw = "week" then "weeks"
  else "time_periods"

/-- Modelled from the spec: the categorical keyword dictionary, in listed
order (section 4.3). -/
def categoricalKws : List String :=
  ["category", "type", "region", "location", "department", "product", "brand"]

/-- Modelled from the spec: the categorical canonical label mapping
(section 4.3). -/
def categoricalMap (kw : String) : String :=
  if kw = "region" ∨ kw = "location" then "regions"
  else if kw = "product" then "products"
  else if kw = "department" then "departments"
  else kw ++ "s"

/-- First keyword of the list occurring as a substring of the lower-cased
query, scanned in listed order. -/
def firstHit : List String → String → Option String
  | [], _ => none
  | kw :: rest, lq => if includesStr lq kw then some kw else firstHit rest lq

/-- Modelled from the spec: the missing VariableExtractor's x-axis rule
(section 4.3) — temporal dictionary first, then categorical, then the
default `"categories"`. -/
def extractX (q : String) : String :=
  match firstHit temporalKws (lowerStr q) with
  | some kw => temporalMap kw
  | none =>
    match firstHit categoricalKws (lowerStr q) with
    | some kw => categoricalMap kw
    | none => "categories"

/-- Modelled from the spec: the quantitative y-axis dictionary, in listed
order (section 4.3). -/
def quantKws : List String :=
  ["sales", "revenue", "price", "cost", "count", "amount", "total", "rating", "score"]

/-- Modelled from the spec: the missing VariableExtractor's y-axis rule
(section 4.3) — the first quantitative hit verbatim, else `"values"`. -/
def extractY (q : String) : String :=
  match firstHit quantKws (lowerStr q) with
  | some kw => kw
  | none => "values"

/-- Modelled from the spec: the missing TitleSynthesizer's command-verb set
(section 4.4). -/
def commandVerbs : List String :=
  ["show", "create", "display", "generate", "make", "build", "plot", "chart", "graph"]

/-- Modelled from the spec: the leading-article set (section 4.4). -/
def articles : List String := ["a", "an", "the"]

/-- Modelled from the spec: geometry to display name (section 4.4 d). -/
def chartTypeLabel (geom : String) : String :=
  if geom = "bar" then "Bar Chart"
  else if geom = "line" then "Line Chart"
  else if geom = "point" then "Scatter Plot"
  else "Area Chart"

/-- Capitalise the first character of a character list. -/
def capWord : List Char → List Char
  | [] => []
  | c :: rest => c.toUpper :: rest

/-- Modelled from the spec: steps (a)-(d) of the missing TitleSynthesizer
(section 4.4) — strip one leading command verb, strip one leading article,
capitalise the first character, and append `" - " + ChartTypeLabel` when
none of `chart`, `graph`, `plot` occurs in the title and it is shorter than
30 characters. -/
def preTitle (q geom : String) : String :=
  let t1 := stripFirst commandVerbs q.toList
  let t2 := String.mk (capWord (stripFirst articles t1))
  if (includesStr (lowerStr t2) "chart" = false ∧ includesStr (lowerStr t2) "graph" = false ∧
      includesStr (lowerStr t2) "plot" = false) ∧ t2.length < 30
  then t2 ++ " - " ++ chartTypeLabel geom
  else t2

/-- Modelled from the spec: step (e) of the missing TitleSynthesizer
(section 4.4) — truncate a title longer than 60 characters to its first 57
characters plus an ellipsis marker. -/
def synthesizeTitle (q geom : String) : String :=
  if (preTitle q geom).length > 60 then strTake (preTitle q geom) 57 ++ "..."
  else preTitle q geom

end SpecModel

namespace SpecModel

/-! ### GeomClassifier: the strictly-greater selection rule -/

theorem foldl_best_stays (l : List (String × List String)) (f : List String → Nat)
    (best : String × Nat) (h : ∀ c ∈ l, f c.2 ≤ best.2) :
    l.foldl (fun b c => if b.2 < f c.2 then (c.1, f c.2) else b) best = best := by
  induction l generalizing best with
  | nil => rfl
  | cons c cs ih =>
    rw [List.foldl_cons]
    have hc : f c.2 ≤ best.2 := h c (List.mem_cons_self c cs)
    rw [if_neg (by omega)]
    exact ih best (fun d hd => h d (List.mem_cons_of_mem c hd))

/-- C2: the geometry classifier scores the four candidates in the fixed
order `bar`, `line`, `point`, `area` (substring hit worth 1.0, doubled here
to 2, exact-token hit an additional 0.5, doubled to 1), seeds the winner
with `bar` and replaces it only on a strictly greater score; consequently,
whenever no candidate's score strictly exceeds `bar`'s score, the returned
geometry is `"bar"`. -/
theorem C2_tie_break_to_bar (q : String)
    (h : ∀ c ∈ candidates,
      candScore2 (lowerStr q) (tokensOf (lowerStr q)) c.2 ≤
        candScore2 (lowerStr q) (tokensOf (lowerStr q)) barKw) :
    classifyGeom q = "bar" := by
  show (candidates.foldl
      (fun best c =>
        if best.2 < candScore2 (lowerStr q) (tokensOf (lowerStr q)) c.2
        then (c.1, candScore2 (lowerStr q) (tokensOf (lowerStr q)) c.2) else best)
      ("bar", candScore2 (lowerStr q) (tokensOf (lowerStr q)) barKw)).1 = "bar"
  rw [foldl_best_stays candidates (candScore2 (lowerStr q) (tokensOf (lowerStr q)))
    ("bar", candScore2 (lowerStr q) (tokensOf (lowerStr q)) barKw) h]

/-- Witness for C2: the query "compare scatter" scores `bar` and `point`
equally (doubled score 3 each) and the tie resolves to `bar`. -/
theorem C2_witness : classifyGeom "compare scatter" = "bar" :=
  C2_tie_break_to_bar "compare scatter" (by decide)

/-! ### VariableExtractor -/

theorem extractX_temporal (q kw : String)
    (h : firstHit temporalKws (lowerStr q) = some kw) :
    extractX q = temporalMap kw := by
  unfold extractX
  rw [h]

theorem firstHit_mem_and_inc (l : List String) (lq k : String)
    (h : firstHit l lq = some k) : k ∈ l ∧ includesStr lq k = true := by
  induction l with
  | nil => exact Option.noConfusion h
  | cons a rest ih =>
    simp only [firstHit] at h
    split at h
    · cases h
      exact ⟨List.mem_cons_self _ _, by assumption⟩
    · obtain ⟨h1, h2⟩ := ih h
      exact ⟨List.mem_cons_of_mem a h1, h2⟩

theorem firstHit_isSome (l : List String) (lq : String) (kw : String)
    (hkw : kw ∈ l) (hinc : includesStr lq kw = true) :
    ∃ k, firstHit l lq = some k := by
  induction l with
  | nil => cases hkw
  | cons a rest ih =>
    by_cases ha : includesStr lq a = true
    · exact ⟨a, by simp only [firstHit, if_pos ha]⟩
    · rcases List.mem_cons.mp hkw with rfl | hkw2
      · exact absurd hinc ha
      · obtain ⟨k, hk⟩ := ih hkw2
        exact ⟨k, by simp only [firstHit, if_neg ha]; exact hk⟩

/-- C4: the x-axis extractor checks the temporal dictionary in the listed
order `month, year, quarter, week, day, time, date, period`; a first hit of
`"month"` maps to `"months"`, `"year"` to `"years"`, `"quarter"` to
`"quarters"`, `"week"` to `"weeks"`, and any other temporal hit to
`"time_periods"`; in particular the scenario query "Create a line chart
showing website traffic over time" yields x = `"time_periods"`. -/
theorem C4_temporal_mapping (q : String) :
    (firstHit temporalKws (lowerStr q) = some "month" → extractX q = "months") ∧
    (firstHit temporalKws (lowerStr q) = some "year" → extractX q = "years") ∧
    (firstHit temporalKws (lowerStr q) = some "quarter" → extractX q = "quarters") ∧
    (firstHit temporalKws (lowerStr q) = some "week" → extractX q = "weeks") ∧
    (∀ kw, firstHit temporalKws (lowerStr q) = some kw →
      kw ≠ "month" → kw ≠ "year" → kw ≠ "quarter" → kw ≠ "week" →
      extractX q = "time_periods") ∧
    extractX "Create a line chart showing website traffic over time" = "time_periods" := by
  refine ⟨?_, ?_, ?_, ?_, ?_, by decide⟩
  · intro h; rw [extractX_temporal q _ h]; decide
  · intro h; rw [extractX_temporal q _ h]; decide
  · intro h; rw [extractX_temporal q _ h]; decide
  · intro h; rw [extractX_temporal q _ h]; decide
  · intro kw h h1 h2 h3 h4
    rw [extractX_temporal q _ h]
    unfold temporalMap
    rw [if_neg h1, if_neg h2, if_neg h3, if_neg h4]

/-- Witness for C4: "monthly sales" has first temporal hit "month" and maps
to x = "months". -/
theorem C4_witness : extractX "monthly sales" = "months" :=
  (C4_temporal_mapping "monthly sales").1 (by decide)

theorem temporalMap_mem (kw : String) :
    temporalMap kw ∈
      (["months", "years", "quarters", "weeks", "time_periods"] : List String) := by
  unfold temporalMap
  split
  · decide
  · split
    · decide
    · split
      · decide
      · split
        · decide
        · decide

theorem temporalMap_not_categorical (kw : String) :
    temporalMap kw ∉
      (["regions", "types", "categorys", "departments", "products", "brands"] : List String) := by
  unfold temporalMap
  split
  · decide
  · split
    · decide
    · split
      · decide
      · split
        · decide
        · decide

/-- C5: whenever the query contains both a temporal x-axis keyword and a
categorical x-axis keyword, the returned x-axis is the temporal mapping of
the first temporal hit — one of the temporal labels and never one of the
categorical labels. -/
theorem C5_temporal_priority (q : String)
    (ht : ∃ t ∈ temporalKws, includesStr (lowerStr q) t = true)
    (_hc : ∃ c ∈ categoricalKws, includesStr (lowerStr q) c = true) :
    ∃ kw ∈ temporalKws,
      firstHit temporalKws (lowerStr q) = some kw ∧
      extractX q = temporalMap kw ∧
      extractX q ∈ (["months", "years", "quarters", "weeks", "time_periods"] : List String) ∧
      extractX q ∉
        (["regions", "types", "categorys", "departments", "products", "brands"] : List String) := by
  obtain ⟨t, htmem, htinc⟩ := ht
  obtain ⟨k, hk⟩ := firstHit_isSome temporalKws (lowerStr q) t htmem htinc
  obtain ⟨hkmem, -⟩ := firstHit_mem_and_inc temporalKws (lowerStr q) k hk
  have hx : extractX q = temporalMap k := extractX_temporal q k hk
  exact ⟨k, hkmem, hk, hx, hx ▸ temporalMap_mem k, hx ▸ temporalMap_not_categorical k⟩

/-- Witness for C5: "monthly sales by region" contains the temporal keyword
"month" and the categorical keyword "region"; the temporal mapping wins. -/
theorem C5_witness :
    ∃ kw ∈ temporalKws,
      firstHit temporalKws (lowerStr "monthly sales by region") = some kw ∧
      extractX "monthly sales by region" = temporalMap kw ∧
      extractX "monthly sales by region" ∈
        (["months", "years", "quarters", "weeks", "time_periods"] : List String) ∧
      extractX "monthly sales by region" ∉
        (["regions", "types", "categorys", "departments", "products", "brands"] : List String) :=
  C5_temporal_priority "monthly sales by region"
    ⟨"month", by decide, by decide⟩ ⟨"region", by decide, by decide⟩

theorem firstHit_cases (l : List String) (lq : String) :
    (∃ l1 kw l2, l = l1 ++ kw :: l2 ∧
      (∀ k ∈ l1, includesStr lq k = false) ∧
      includesStr lq kw = true ∧ firstHit l lq = some kw) ∨
    ((∀ k ∈ l, includesStr lq k = false) ∧ firstHit l lq = none) := by
  induction l with
  | nil => exact Or.inr ⟨fun k hk => absurd hk (List.not_mem_nil k), rfl⟩
  | cons a rest ih =>
    by_cases ha : includesStr lq a = true
    · refine Or.inl ⟨[], a, rest, rfl, fun k hk => absurd hk (List.not_mem_nil k), ha, ?_⟩
      simp only [firstHit, if_pos ha]
    · have ha' : includesStr lq a = false := by
        revert ha; cases includesStr lq a <;> simp
      rcases ih with ⟨l1, kw, l2, heq, hall, hinc, hfh⟩ | ⟨hall, hfh⟩
      · refine Or.inl ⟨a :: l1, kw, l2, by rw [heq]; rfl, ?_, hinc, ?_⟩
        · intro k hk
          rcases List.mem_cons.mp hk with rfl | hk2
          · exact ha'
          · exact hall k hk2
        · simp only [firstHit, if_neg ha]
          exact hfh
      · refine Or.inr ⟨?_, ?_⟩
        · intro k hk
          rcases List.mem_cons.mp hk with rfl | hk2
          · exact ha'
          · exact hall k hk2
        · simp only [firstHit, if_neg ha]
          exact hfh

/-- C6: the y-axis is determined, independently of the x-axis, by scanning
the quantitative dictionary `sales, revenue, price, cost, count, amount,
total, rating, score` in listed order: the first keyword occurring in the
lower-cased query is used verbatim as the y label, and if none occurs, y is
`"values"`. -/
theorem C6_y_axis_first_hit (q : String) :
    (∃ l1 kw l2, quantKws = l1 ++ kw :: l2 ∧
      (∀ k ∈ l1, includesStr (lowerStr q) k = false) ∧
      includesStr (lowerStr q) kw = true ∧ extractY q = kw) ∨
    ((∀ k ∈ quantKws, includesStr (lowerStr q) k = false) ∧ extractY q = "values") := by
  rcases firstHit_cases quantKws (lowerStr q) with ⟨l1, kw, l2, heq, hall, hinc, hfh⟩ | ⟨hall, hfh⟩
  · refine Or.inl ⟨l1, kw, l2, heq, hall, hinc, ?_⟩
    unfold extractY
    rw [hfh]
  · refine Or.inr ⟨hall, ?_⟩
    unfold extractY
    rw [hfh]

/-- Witness for C6 at "show total revenue": the listed order (not the order
of occurrence in the query) picks "revenue" over "total". -/
theorem C6_witness :
    (∃ l1 kw l2, quantKws = l1 ++ kw :: l2 ∧
      (∀ k ∈ l1, includesStr (lowerStr "show total revenue") k = false) ∧
      includesStr (lowerStr "show total revenue") kw = true ∧
      extractY "show total revenue" = kw) ∨
    ((∀ k ∈ quantKws, includesStr (lowerStr "show total revenue") k = false) ∧
      extractY "show total revenue" = "values") :=
  C6_y_axis_first_hit "show total revenue"

/-! ### TitleSynthesizer: the 60-character bound -/

/-- C7: the synthesized title is always at most 60 characters: whenever the
title produced by stripping, capitalisation and optional suffixing exceeds
60 characters, it is replaced by its first 57 characters with an ellipsis
marker appended. -/
theorem C7_title_bound (q geom : String) :
    (synthesizeTitle q geom).length ≤ 60 ∧
    ((preTitle q geom).length > 60 →
      synthesizeTitle q geom = strTake (preTitle q geom) 57 ++ "...") := by
  constructor
  · rw [synthesizeTitle]
    split
    · rw [String.length_append, strTake_length, Nat.min_eq_left (by omega)]
      decide
    · omega
  · intro h
    rw [synthesizeTitle, if_pos h]

/-- Witness for C7: a 69-character query whose pre-title exceeds 60
characters and is truncated to 57 characters plus the ellipsis. -/
theorem C7_witness :
    (synthesizeTitle
      "visualize the quarterly marketing expenditure of every single region" "bar").length ≤ 60 ∧
    synthesizeTitle
        "visualize the quarterly marketing expenditure of every single region" "bar" =
      strTake
        (preTitle
          "visualize the quarterly marketing expenditure of every single region" "bar") 57 ++
        "..." :=
  ⟨(C7_title_bound
      "visualize the quarterly marketing expenditure of every single region" "bar").1,
   (C7_title_bound
      "visualize the quarterly marketing expenditure of every single region" "bar").2
     (by decide)⟩

end SpecModel
